import Mathlib

/-!
# VVim value types (src/utils/vvim.h)

A shallow embedding of the value types declared in `vvim.h`: `VVim::Key`,
`VVim::Register` and `VVim::Token`, with the member functions whose bodies are
given inline in the header.

* C++ `int` fields are `Int`.  Every arithmetic expression that is evaluated
  sits behind a range check on its operands, so no 32-bit wrap-around can occur
  where a value is computed.
* `QChar` is its UTF-16 code unit, `QString` a list of code units.
* `V_ASSERT` yields a `Checked` result: either the function returns, or the
  assertion fails.
-/

namespace VVim

/-! ## Qt constants and Qt value types -/

namespace Qt

/-- Value of `Qt::Key_0` in Qt's `qnamespace.h` (0x30). -/
def Key_0 : Int := 0x30

/-- Value of `Qt::Key_9` in Qt's `qnamespace.h` (0x39). -/
def Key_9 : Int := 0x39

/-- Value of `Qt::Key_A` in Qt's `qnamespace.h` (0x41). -/
def Key_A : Int := 0x41

/-- Value of `Qt::Key_D` in Qt's `qnamespace.h` (0x44). -/
def Key_D : Int := 0x44

/-- Value of `Qt::Key_Z` in Qt's `qnamespace.h` (0x5a). -/
def Key_Z : Int := 0x5a

/-- Value of `Qt::NoModifier` in Qt's `qnamespace.h` (0x00000000). -/
def NoModifier : Int := 0x00000000

/-- Value of `Qt::ShiftModifier` in Qt's `qnamespace.h` (0x02000000). -/
def ShiftModifier : Int := 0x02000000

end Qt

/-- A `QChar`: one UTF-16 code unit (`ushort ucs`). -/
structure QChar where
  ucs : Nat
  deriving DecidableEq, Repr

/-- The constructor `QChar::QChar(int rc) : ucs(ushort(rc & 0xffff))`. -/
def QChar.ofInt (rc : Int) : QChar :=
  QChar.mk (rc % 65536).toNat

/-- The constructor `QChar::QChar()`: the null character. -/
def QChar.null : QChar :=
  QChar.mk 0

/-- A character literal converted to `QChar` (Latin-1 literals only). -/
def QChar.ofChar (c : Char) : QChar :=
  QChar.mk c.toNat

/-- Conversion of a Latin-1 code unit to the C++ type `char`.  Whether `char`
is signed is implementation-defined, hence the flag: a signed `char` maps
0x80..0xff to -128..-1. -/
def toCChar (charSigned : Bool) (u : Nat) : Int :=
  if charSigned && decide (128 ≤ u % 256) then (u % 256 : Int) - 256 else (u % 256 : Int)

/-- Qt: `char QChar::toLatin1() const { return ucs > 0xff ? '\0' : char(ucs); }`. -/
def QChar.toLatin1 (charSigned : Bool) (c : QChar) : Int :=
  if c.ucs > 0xff then 0 else toCChar charSigned c.ucs

/-- A `QString`: a sequence of UTF-16 code units; the default-constructed
string is empty. -/
abbrev QString := List QChar

/-- Qt: `bool QString::endsWith(QChar c) const`, true when the string is not
empty and its last code unit is `c`. -/
def QString.endsWith (s : QString) (c : QChar) : Bool :=
  !s.isEmpty && s.getLast? == some c

/-! ## Assertions -/

/-- Outcome of a call that may run into a failed assertion. -/
inductive Checked (α : Type) where
  | returned (value : α)
  | assertionFailed
  deriving DecidableEq, Repr

/-- Sequencing of checked computations: a failed assertion ends the call. -/
def Checked.andThen {α β : Type} (x : Checked α) (f : α → Checked β) : Checked β :=
  match x with
  | Checked.returned a => f a
  | Checked.assertionFailed => Checked.assertionFailed

/-- Modelled from the spec: the macro `V_ASSERT` of `vutils.h`, which is not
among the sources.  The spec calls a failed check "a contract violation
(assertion failure), not a recoverable error": execution continues only when
the condition holds. -/
def V_ASSERT (cond : Bool) : Checked Unit :=
  if cond then Checked.returned () else Checked.assertionFailed

/-! ## `VVim::Key` -/

/-- The struct `Key`: `int m_key; int m_modifiers;`. -/
structure Key where
  m_key : Int
  m_modifiers : Int
  deriving DecidableEq, Repr

namespace Key

/-- Constructor `Key(int p_key, int p_modifiers = Qt::NoModifier)` called with one argument. -/
def ofKey (p_key : Int) : Key :=
  Key.mk p_key Qt.NoModifier

/-- Constructor `Key() : m_key(-1), m_modifiers(Qt::NoModifier) {}`. -/
def default : Key :=
  Key.mk (-1) Qt.NoModifier

/-- Member `isDigit()`. -/
def isDigit (k : Key) : Bool :=
  decide (k.m_key ≥ Qt.Key_0)
    && decide (k.m_key ≤ Qt.Key_9)
    && decide (k.m_modifiers = Qt.NoModifier)

/-- Member `toDigit()`: `V_ASSERT(isDigit()); return m_key - Qt::Key_0;`. -/
def toDigit (k : Key) : Checked Int :=
  (V_ASSERT k.isDigit).andThen fun _ =>
    Checked.returned (k.m_key - Qt.Key_0)

/-- Member `isAlphabet()`. -/
def isAlphabet (k : Key) : Bool :=
  decide (k.m_key ≥ Qt.Key_A)
    && decide (k.m_key ≤ Qt.Key_Z)
    && (decide (k.m_modifiers = Qt.NoModifier) || decide (k.m_modifiers = Qt.ShiftModifier))

/-- Member `toAlphabet()`. -/
def toAlphabet (k : Key) : Checked QChar :=
  (V_ASSERT k.isAlphabet).andThen fun _ =>
    if k.m_modifiers = Qt.NoModifier then
      Checked.returned (QChar.ofInt (('a'.toNat : Int) + (k.m_key - Qt.Key_A)))
    else
      Checked.returned (QChar.ofInt (('A'.toNat : Int) + (k.m_key - Qt.Key_A)))

/-- Member `isValid()`. -/
def isValid (k : Key) : Bool :=
  decide (k.m_key > -1) && decide (k.m_modifiers > -1)

/-- Operator `operator==(const Key &p_key)`, with `a` the object and `p_key` the argument. -/
def eq (a p_key : Key) : Bool :=
  decide (p_key.m_key = a.m_key) && decide (p_key.m_modifiers = a.m_modifiers)

end Key

/-! ## `VVim::Register` -/

/-- The struct `Register`: `QChar m_name; QString m_value; bool m_append;`. -/
structure Register where
  m_name : QChar
  m_value : QString
  m_append : Bool
  deriving DecidableEq, Repr

/-- The line-feed character `'\n'`. -/
def newLine : QChar :=
  QChar.ofChar '\n'

namespace Register

/-- Constructor `Register(QChar p_name, const QString &p_value)`. -/
def ofNameValue (p_name : QChar) (p_value : QString) : Register :=
  Register.mk p_name p_value false

/-- Constructor `Register(QChar p_name)`: `m_value` is default-constructed. -/
def ofName (p_name : QChar) : Register :=
  Register.mk p_name [] false

/-- Constructor `Register()`: `m_name` and `m_value` are default-constructed. -/
def default : Register :=
  Register.mk QChar.null [] false

/-- Member `isNamedRegister()`: `char ch = m_name.toLatin1(); return ch >= 'a' && ch <= 'z';`. -/
def isNamedRegister (charSigned : Bool) (r : Register) : Bool :=
  let ch := r.m_name.toLatin1 charSigned
  decide (ch ≥ ('a'.toNat : Int)) && decide (ch ≤ ('z'.toNat : Int))

/-- Member `isBlock()`: `return m_value.endsWith('\n');`. -/
def isBlock (r : Register) : Bool :=
  QString.endsWith r.m_value newLine

end Register

/-! ## `VVim::Token` -/

/-- Enumeration `enum class Action`. -/
inductive Action where
  | Move | Delete | Copy | Paste | PasteBefore | Change | Indent | UnIndent
  | ToUpper | ToLower | Invalid
  deriving DecidableEq, Repr

/-- Enumeration `enum class Movement`. -/
inductive Movement where
  | Left | Right | Up | Down | VisualUp | VisualDown | PageUp | PageDown
  | HalfPageUp | HalfPageDown | StartOfLine | EndOfLine | FirstCharacter | LineJump
  | StartOfDocument | EndOfDocument | WordForward | WORDForward | ForwardEndOfWord
  | ForwardEndOfWORD | WordBackward | WORDBackward | BackwardEndOfWord | BackwardEndOfWORD
  | FindForward | FindBackward | TillForward | TillBackward | Invalid
  deriving DecidableEq, Repr

/-- Enumeration `enum class Range`. -/
inductive Range where
  | Line | WordInner | WordAround | WORDInner | WORDAround | QuoteInner | QuoteAround
  | DoubleQuoteInner | DoubleQuoteAround | ParenthesisInner | ParenthesisAround
  | BracketInner | BracketAround | AngleBracketInner | AngleBracketAround
  | BraceInner | BraceAround | Invalid
  deriving DecidableEq, Repr

/-- Enumeration `enum class TokenType { Action = 0, Repeat, Movement, Range, Invalid }`. -/
inductive TokenType where
  | Action | Repeat | Movement | Range | Invalid
  deriving DecidableEq, Repr

/-- The anonymous union inside `Token`
(`Action m_action; int m_repeat; Range m_range; Movement m_movement;`):
the member that a constructor initialised, or `unset` when none was. -/
inductive TokenUnion where
  | unset
  | m_action (p_action : Action)
  | m_repeat (p_repeat : Int)
  | m_range (p_range : Range)
  | m_movement (p_movement : Movement)
  deriving DecidableEq, Repr

/-- The struct `Token`: `TokenType m_type;`, the union, and `Key m_key;`. -/
structure Token where
  m_type : TokenType
  m_union : TokenUnion
  m_key : Key
  deriving DecidableEq, Repr

namespace Token

/-- Constructor `Token(Action p_action) : m_type(TokenType::Action), m_action(p_action) {}`;
`m_key` is default-constructed. -/
def ofAction (p_action : Action) : Token :=
  Token.mk TokenType.Action (TokenUnion.m_action p_action) Key.default

/-- Constructor `Token(int p_repeat) : m_type(TokenType::Repeat), m_repeat(p_repeat) {}`. -/
def ofRepeat (p_repeat : Int) : Token :=
  Token.mk TokenType.Repeat (TokenUnion.m_repeat p_repeat) Key.default

/-- Constructor `Token(Movement p_movement) : m_type(TokenType::Movement), m_movement(p_movement) {}`. -/
def ofMovement (p_movement : Movement) : Token :=
  Token.mk TokenType.Movement (TokenUnion.m_movement p_movement) Key.default

/-- Constructor `Token(Movement p_movement, Key p_key)
: m_type(TokenType::Movement), m_movement(p_movement), m_key(p_key) {}`. -/
def ofMovementKey (p_movement : Movement) (p_key : Key) : Token :=
  Token.mk TokenType.Movement (TokenUnion.m_movement p_movement) p_key

/-- Constructor `Token(Range p_range) : m_type(TokenType::Range), m_range(p_range) {}`. -/
def ofRange (p_range : Range) : Token :=
  Token.mk TokenType.Range (TokenUnion.m_range p_range) Key.default

/-- Constructor `Token() : m_type(TokenType::Invalid) {}`: no union member is initialised. -/
def default : Token :=
  Token.mk TokenType.Invalid TokenUnion.unset Key.default

/-- Member `isRepeat()`. -/
def isRepeat (t : Token) : Bool :=
  decide (t.m_type = TokenType.Repeat)

/-- Member `isAction()`. -/
def isAction (t : Token) : Bool :=
  decide (t.m_type = TokenType.Action)

/-- Member `isMovement()`. -/
def isMovement (t : Token) : Bool :=
  decide (t.m_type = TokenType.Movement)

/-- Member `isRange()`. -/
def isRange (t : Token) : Bool :=
  decide (t.m_type = TokenType.Range)

/-- Member `isValid()`. -/
def isValid (t : Token) : Bool :=
  decide (t.m_type ≠ TokenType.Invalid)

/-- Reading the union member `m_action`; defined only while it is the
initialised member. -/
def m_action (t : Token) : Option Action :=
  match t.m_union with
  | TokenUnion.m_action a => some a
  | _ => none

/-- Reading the union member `m_repeat`. -/
def m_repeat (t : Token) : Option Int :=
  match t.m_union with
  | TokenUnion.m_repeat n => some n
  | _ => none

/-- Reading the union member `m_range`. -/
def m_range (t : Token) : Option Range :=
  match t.m_union with
  | TokenUnion.m_range r => some r
  | _ => none

/-- Reading the union member `m_movement`. -/
def m_movement (t : Token) : Option Movement :=
  match t.m_union with
  | TokenUnion.m_movement m => some m
  | _ => none

/-- The four classifiers of a token, in the order Action, Repeat, Movement,
Range. -/
def classifiers (t : Token) : List Bool :=
  [t.isAction, t.isRepeat, t.isMovement, t.isRange]

end Token

end VVim

/-! ## Properties -/

namespace VVim

/-- Function `endsWith` holds exactly for the strings of the form `init ++ [c]`. -/
theorem QString.endsWith_iff_append (s : QString) (c : QChar) :
    QString.endsWith s c = true ↔ ∃ init : QString, s = init ++ [c] := by
  unfold QString.endsWith
  constructor
  · intro h
    rcases List.eq_nil_or_concat s with hs | ⟨init, last, hs⟩
    · subst hs
      simp at h
    · subst hs
      simp at h
      exact ⟨init, by rw [h, List.concat_eq_append]⟩
  · rintro ⟨init, rfl⟩
    simp

/-- The empty string ends with no character. -/
theorem QString.endsWith_nil (c : QChar) : QString.endsWith [] c = false := by
  simp [QString.endsWith]

/-- C1: for every register, `isBlock()` is true if and only if `m_value` ends
with the newline character, that is, `m_value` is some string followed by
`'\n'`; it is false for the empty value, and registers with the same value give
the same answer whatever their name and append flag. -/
theorem Register.isBlock_iff_value_ends_with_newline :
    (∀ r : Register, r.isBlock = true ↔ ∃ init : QString, r.m_value = init ++ [newLine])
    ∧ (∀ (n : QChar) (a : Bool), (Register.mk n [] a).isBlock = false)
    ∧ (∀ (n n2 : QChar) (v : QString) (a a2 : Bool),
        (Register.mk n v a).isBlock = (Register.mk n2 v a2).isBlock) := by
  refine ⟨?_, ?_, ?_⟩
  · intro r
    exact QString.endsWith_iff_append r.m_value newLine
  · intro n a
    exact QString.endsWith_nil newLine
  · intro n n2 v a a2
    rfl

/-- C2: `isDigit()` holds iff `Qt::Key_0 <= m_key <= Qt::Key_9` and
`m_modifiers == Qt::NoModifier`; on a digit key the assertion of `toDigit()`
passes and `toDigit()` returns `m_key - Qt::Key_0`, which lies in 0..9; on a key
that is not a digit `toDigit()` ends in the failed assertion and returns no
value. -/
theorem Key.toDigit_contract (k : Key) :
    (k.isDigit = true ↔
        (Qt.Key_0 ≤ k.m_key ∧ k.m_key ≤ Qt.Key_9) ∧ k.m_modifiers = Qt.NoModifier)
    ∧ (k.isDigit = true →
        V_ASSERT k.isDigit = Checked.returned ()
        ∧ k.toDigit = Checked.returned (k.m_key - Qt.Key_0)
        ∧ 0 ≤ k.m_key - Qt.Key_0 ∧ k.m_key - Qt.Key_0 ≤ 9)
    ∧ (k.isDigit = false →
        V_ASSERT k.isDigit = Checked.assertionFailed
        ∧ k.toDigit = Checked.assertionFailed
        ∧ ∀ d : Int, k.toDigit ≠ Checked.returned d) := by
  refine ⟨?_, ?_, ?_⟩
  · simp [Key.isDigit]
  · intro h
    have hk := h
    simp only [Key.isDigit, Bool.and_eq_true, decide_eq_true_eq] at hk
    obtain ⟨⟨h0, h9⟩, _⟩ := hk
    simp only [Qt.Key_0, Qt.Key_9] at h0 h9 ⊢
    refine ⟨by simp [V_ASSERT, h], by simp [Key.toDigit, V_ASSERT, h, Checked.andThen, Qt.Key_0],
      by omega, by omega⟩
  · intro h
    refine ⟨by simp [V_ASSERT, h], by simp [Key.toDigit, V_ASSERT, h, Checked.andThen], ?_⟩
    intro d
    simp [Key.toDigit, V_ASSERT, h, Checked.andThen]

/-- C2 at the key `5` (a digit) and at the key `A` (not a digit). -/
theorem Key.toDigit_contract_witness :
    (Key.ofKey 0x35).isDigit = true
    ∧ (Key.ofKey 0x35).toDigit = Checked.returned 5
    ∧ (Key.ofKey Qt.Key_A).isDigit = false
    ∧ (Key.ofKey Qt.Key_A).toDigit = Checked.assertionFailed :=
  ⟨by decide,
    ((Key.toDigit_contract (Key.ofKey 0x35)).2.1 (by decide)).2.1,
    by decide,
    ((Key.toDigit_contract (Key.ofKey Qt.Key_A)).2.2 (by decide)).2.1⟩

/-- C4: `a == b` is true iff the two keys have the same code and the same
modifiers; so `==` is reflexive, symmetric and transitive, and two keys with
the same code and different modifiers are not equal, for instance the key `D`
without modifier and with Shift. -/
theorem Key.eq_iff_code_and_modifiers :
    (∀ a b : Key, Key.eq a b = true ↔ a.m_key = b.m_key ∧ a.m_modifiers = b.m_modifiers)
    ∧ (∀ a : Key, Key.eq a a = true)
    ∧ (∀ a b : Key, Key.eq a b = true → Key.eq b a = true)
    ∧ (∀ a b c : Key, Key.eq a b = true → Key.eq b c = true → Key.eq a c = true)
    ∧ (∀ code m m2 : Int, m ≠ m2 → Key.eq (Key.mk code m) (Key.mk code m2) = false)
    ∧ Key.eq (Key.mk Qt.Key_D Qt.NoModifier) (Key.mk Qt.Key_D Qt.ShiftModifier) = false := by
  have hiff : ∀ a b : Key, Key.eq a b = true ↔ a.m_key = b.m_key ∧ a.m_modifiers = b.m_modifiers := by
    intro a b
    simp only [Key.eq, Bool.and_eq_true, decide_eq_true_eq]
    constructor
    · rintro ⟨h1, h2⟩
      exact ⟨h1.symm, h2.symm⟩
    · rintro ⟨h1, h2⟩
      exact ⟨h1.symm, h2.symm⟩
  refine ⟨hiff, ?_, ?_, ?_, ?_, ?_⟩
  · intro a
    exact (hiff a a).2 ⟨rfl, rfl⟩
  · intro a b h
    obtain ⟨h1, h2⟩ := (hiff a b).1 h
    exact (hiff b a).2 ⟨h1.symm, h2.symm⟩
  · intro a b c hab hbc
    obtain ⟨h1, h2⟩ := (hiff a b).1 hab
    obtain ⟨h3, h4⟩ := (hiff b c).1 hbc
    exact (hiff a c).2 ⟨h1.trans h3, h2.trans h4⟩
  · intro code m m2 hne
    cases hb : Key.eq (Key.mk code m) (Key.mk code m2)
    · rfl
    · exact absurd ((hiff _ _).1 hb).2 hne
  · decide

/-- C4 at concrete keys: symmetry and transitivity applied to the key `D`. -/
theorem Key.eq_iff_code_and_modifiers_witness :
    Key.eq (Key.mk Qt.Key_D 0) (Key.ofKey 0x44) = true
    ∧ Key.eq (Key.ofKey 0x44) (Key.mk Qt.Key_D 0) = true
    ∧ Key.eq (Key.mk Qt.Key_D 0) (Key.mk Qt.Key_D 0) = true
    ∧ Key.eq (Key.mk 1 2) (Key.mk 1 3) = false :=
  ⟨by decide,
    Key.eq_iff_code_and_modifiers.2.2.1 (Key.mk Qt.Key_D 0) (Key.ofKey 0x44) (by decide),
    Key.eq_iff_code_and_modifiers.2.2.2.1 (Key.mk Qt.Key_D 0) (Key.ofKey 0x44) (Key.mk Qt.Key_D 0)
      (by decide) (by decide),
    Key.eq_iff_code_and_modifiers.2.2.2.2.1 1 2 3 (by decide)⟩

/-- C10: no key is both a digit and an alphabet key; a digit key is valid and
an alphabet key is valid, where valid means `m_key > -1` and
`m_modifiers > -1`; the default key has `m_key = -1`, is not valid, is neither
a digit nor an alphabet key, and both `toDigit()` and `toAlphabet()` end in the
failed assertion on it. -/
theorem Key.classifiers_consistent :
    (∀ k : Key,
        ¬ (k.isDigit = true ∧ k.isAlphabet = true)
        ∧ (k.isDigit = true → k.isValid = true)
        ∧ (k.isAlphabet = true → k.isValid = true)
        ∧ (k.isValid = true ↔ k.m_key > -1 ∧ k.m_modifiers > -1))
    ∧ Key.default.m_key = -1
    ∧ Key.default.isValid = false
    ∧ Key.default.isDigit = false
    ∧ Key.default.isAlphabet = false
    ∧ Key.default.toDigit = Checked.assertionFailed
    ∧ Key.default.toAlphabet = Checked.assertionFailed := by
  refine ⟨?_, by decide, by decide, by decide, by decide, by decide, by decide⟩
  intro k
  refine ⟨?_, ?_, ?_, ?_⟩
  · simp only [Key.isDigit, Key.isAlphabet, Bool.and_eq_true, decide_eq_true_eq,
      Qt.Key_0, Qt.Key_9, Qt.Key_A, Qt.Key_Z]
    omega
  · simp only [Key.isDigit, Key.isValid, Bool.and_eq_true, decide_eq_true_eq,
      Qt.Key_0, Qt.Key_9, Qt.NoModifier]
    omega
  · simp only [Key.isAlphabet, Key.isValid, Bool.and_eq_true, Bool.or_eq_true, decide_eq_true_eq,
      Qt.Key_A, Qt.Key_Z, Qt.NoModifier, Qt.ShiftModifier]
    omega
  · simp [Key.isValid]

/-- C10 at the key `7` and at the key `Shift+Q`. -/
theorem Key.classifiers_consistent_witness :
    (Key.ofKey 0x37).isDigit = true ∧ (Key.ofKey 0x37).isValid = true
    ∧ (Key.mk 0x51 Qt.ShiftModifier).isAlphabet = true
    ∧ (Key.mk 0x51 Qt.ShiftModifier).isValid = true :=
  ⟨by decide,
    (Key.classifiers_consistent.1 (Key.ofKey 0x37)).2.1 (by decide),
    by decide,
    (Key.classifiers_consistent.1 (Key.mk 0x51 Qt.ShiftModifier)).2.2.1 (by decide)⟩

/-- The code unit that `toAlphabet()` computes from the code of a letter key. -/
theorem QChar.ofInt_letter (base : Nat) (m : Int) (hb : base ≤ 200)
    (hA : (0x41 : Int) ≤ m) (hZ : m ≤ 0x5a) :
    QChar.ofInt ((base : Int) + (m - 0x41)) = QChar.mk (base + (m - 0x41).toNat) := by
  unfold QChar.ofInt
  congr 1
  omega

/-- The Latin letters `a`..`z` and `A`..`Z` are related by `Char.toUpper` and
`Char.toLower`. -/
theorem Char.letter_case (i : Nat) (hi : i ≤ 25) :
    (Char.ofNat ('a'.toNat + i)).toUpper = Char.ofNat ('A'.toNat + i)
    ∧ (Char.ofNat ('A'.toNat + i)).toLower = Char.ofNat ('a'.toNat + i) := by
  interval_cases i <;> exact ⟨by decide, by decide⟩

/-- C3: on every alphabet key the assertion of `toAlphabet()` passes and the
case of the letter comes from Shift: without modifier the result is
`'a' + (m_key - Qt::Key_A)`, a character in `'a'..'z'`; with Shift it is
`'A' + (m_key - Qt::Key_A)`, a character in `'A'..'Z'`.  Two alphabet keys
with the same code and different modifiers give the lowercase and the
uppercase form of the same letter. -/
theorem Key.toAlphabet_case_from_shift :
    (∀ k : Key, k.isAlphabet = true →
        V_ASSERT k.isAlphabet = Checked.returned ()
        ∧ (k.m_modifiers = Qt.NoModifier ∨ k.m_modifiers = Qt.ShiftModifier)
        ∧ ∃ i : Nat, i ≤ 25 ∧ k.m_key = Qt.Key_A + i
          ∧ (k.m_modifiers = Qt.NoModifier →
              k.toAlphabet
                  = Checked.returned (QChar.ofInt (('a'.toNat : Int) + (k.m_key - Qt.Key_A)))
              ∧ k.toAlphabet = Checked.returned (QChar.mk ('a'.toNat + i))
              ∧ 'a'.toNat ≤ 'a'.toNat + i ∧ 'a'.toNat + i ≤ 'z'.toNat)
          ∧ (k.m_modifiers = Qt.ShiftModifier →
              k.toAlphabet
                  = Checked.returned (QChar.ofInt (('A'.toNat : Int) + (k.m_key - Qt.Key_A)))
              ∧ k.toAlphabet = Checked.returned (QChar.mk ('A'.toNat + i))
              ∧ 'A'.toNat ≤ 'A'.toNat + i ∧ 'A'.toNat + i ≤ 'Z'.toNat))
    ∧ (∀ k1 k2 : Key, k1.isAlphabet = true → k2.isAlphabet = true →
        k1.m_key = k2.m_key → k1.m_modifiers ≠ k2.m_modifiers →
        ∃ lower upper : QChar,
          ((k1.toAlphabet = Checked.returned lower ∧ k2.toAlphabet = Checked.returned upper)
            ∨ (k1.toAlphabet = Checked.returned upper ∧ k2.toAlphabet = Checked.returned lower))
          ∧ 'a'.toNat ≤ lower.ucs ∧ lower.ucs ≤ 'z'.toNat
          ∧ 'A'.toNat ≤ upper.ucs ∧ upper.ucs ≤ 'Z'.toNat
          ∧ lower.ucs - 'a'.toNat = upper.ucs - 'A'.toNat
          ∧ (Char.ofNat lower.ucs).toUpper = Char.ofNat upper.ucs
          ∧ (Char.ofNat upper.ucs).toLower = Char.ofNat lower.ucs) := by
  have key : ∀ k : Key, k.isAlphabet = true →
      (k.m_modifiers = Qt.NoModifier ∨ k.m_modifiers = Qt.ShiftModifier)
      ∧ ∃ i : Nat, i ≤ 25 ∧ k.m_key = Qt.Key_A + i
        ∧ (k.m_modifiers = Qt.NoModifier →
            k.toAlphabet = Checked.returned (QChar.mk ('a'.toNat + i)))
        ∧ (k.m_modifiers = Qt.ShiftModifier →
            k.toAlphabet = Checked.returned (QChar.mk ('A'.toNat + i))) := by
    intro k h
    have hk := h
    simp only [Key.isAlphabet, Bool.and_eq_true, Bool.or_eq_true, decide_eq_true_eq,
      Qt.Key_A, Qt.Key_Z] at hk
    obtain ⟨⟨hA, hZ⟩, hm⟩ := hk
    refine ⟨hm, (k.m_key - 0x41).toNat, by omega, by simp only [Qt.Key_A]; omega, ?_, ?_⟩
    · intro hno
      simp only [Key.toAlphabet, V_ASSERT, h, Checked.andThen, hno, if_true, Qt.Key_A]
      congr 1
      exact QChar.ofInt_letter 'a'.toNat k.m_key (by decide) (by omega) (by omega)
    · intro hsh
      have hne : ¬ k.m_modifiers = Qt.NoModifier := by
        rw [hsh]
        decide
      simp only [Key.toAlphabet, V_ASSERT, h, Checked.andThen, hne, if_true, if_false, Qt.Key_A]
      congr 1
      exact QChar.ofInt_letter 'A'.toNat k.m_key (by decide) (by omega) (by omega)
  refine ⟨?_, ?_⟩
  · intro k h
    obtain ⟨hm, i, hi, hki, hlo, hup⟩ := key k h
    refine ⟨by simp [V_ASSERT, h], hm, i, hi, hki, ?_, ?_⟩
    · intro hno
      have hr := hlo hno
      refine ⟨?_, hr, by omega, ?_⟩
      · rw [hr]
        congr 1
        simp only [Qt.Key_A] at hki ⊢
        rw [QChar.ofInt_letter 'a'.toNat k.m_key (by decide) (by omega) (by omega)]
        congr 1
        omega
      · have : 'z'.toNat = 'a'.toNat + 25 := by decide
        omega
    · intro hsh
      have hr := hup hsh
      refine ⟨?_, hr, by omega, ?_⟩
      · rw [hr]
        congr 1
        simp only [Qt.Key_A] at hki ⊢
        rw [QChar.ofInt_letter 'A'.toNat k.m_key (by decide) (by omega) (by omega)]
        congr 1
        omega
      · have : 'Z'.toNat = 'A'.toNat + 25 := by decide
        omega
  · intro k1 k2 h1 h2 hcode hmod
    obtain ⟨hm1, i, hi, hki, hlo1, hup1⟩ := key k1 h1
    obtain ⟨hm2, j, _, hkj, hlo2, hup2⟩ := key k2 h2
    have hij : i = j := by
      rw [hki, hkj] at hcode
      omega
    subst hij
    have hz : 'z'.toNat = 'a'.toNat + 25 := by decide
    have hZ : 'Z'.toNat = 'A'.toNat + 25 := by decide
    have ha : 'a'.toNat = 'A'.toNat + 32 := by decide
    refine ⟨QChar.mk ('a'.toNat + i), QChar.mk ('A'.toNat + i), ?_, by simp, by simp; omega,
      by simp, by simp; omega, by simp, (Char.letter_case i hi).1, (Char.letter_case i hi).2⟩
    rcases hm1 with hm1 | hm1 <;> rcases hm2 with hm2 | hm2
    · exact absurd (hm1.trans hm2.symm) hmod
    · exact Or.inl ⟨hlo1 hm1, hup2 hm2⟩
    · exact Or.inr ⟨hup1 hm1, hlo2 hm2⟩
    · exact absurd (hm1.trans hm2.symm) hmod

/-- C3 at the key `D`: without modifier it is `d`, with Shift it is `D`. -/
theorem Key.toAlphabet_case_from_shift_witness :
    (Key.mk Qt.Key_D Qt.NoModifier).isAlphabet = true
    ∧ (Key.mk Qt.Key_D Qt.ShiftModifier).isAlphabet = true
    ∧ (Key.mk Qt.Key_D Qt.NoModifier).toAlphabet = Checked.returned (QChar.ofChar 'd')
    ∧ (Key.mk Qt.Key_D Qt.ShiftModifier).toAlphabet = Checked.returned (QChar.ofChar 'D')
    ∧ V_ASSERT (Key.mk Qt.Key_D Qt.NoModifier).isAlphabet = Checked.returned ()
    ∧ ∃ lower upper : QChar,
        ((Key.mk Qt.Key_D Qt.NoModifier).toAlphabet = Checked.returned lower
            ∧ (Key.mk Qt.Key_D Qt.ShiftModifier).toAlphabet = Checked.returned upper
          ∨ (Key.mk Qt.Key_D Qt.NoModifier).toAlphabet = Checked.returned upper
            ∧ (Key.mk Qt.Key_D Qt.ShiftModifier).toAlphabet = Checked.returned lower)
        ∧ 'a'.toNat ≤ lower.ucs ∧ lower.ucs ≤ 'z'.toNat
        ∧ 'A'.toNat ≤ upper.ucs ∧ upper.ucs ≤ 'Z'.toNat
        ∧ lower.ucs - 'a'.toNat = upper.ucs - 'A'.toNat
        ∧ (Char.ofNat lower.ucs).toUpper = Char.ofNat upper.ucs
        ∧ (Char.ofNat upper.ucs).toLower = Char.ofNat lower.ucs :=
  ⟨by decide, by decide, by decide, by decide,
    (Key.toAlphabet_case_from_shift.1 (Key.mk Qt.Key_D Qt.NoModifier) (by decide)).1,
    Key.toAlphabet_case_from_shift.2 (Key.mk Qt.Key_D Qt.NoModifier)
      (Key.mk Qt.Key_D Qt.ShiftModifier) (by decide) (by decide) rfl (by decide)⟩

/-- The `char` that `toLatin1()` gives lies in `'a'..'z'` exactly when the
code unit does, whether `char` is signed or not. -/
theorem QChar.toLatin1_lowercase_iff (charSigned : Bool) (c : QChar) :
    ((97 : Int) ≤ c.toLatin1 charSigned ∧ c.toLatin1 charSigned ≤ 122)
      ↔ (97 ≤ c.ucs ∧ c.ucs ≤ 122) := by
  unfold QChar.toLatin1 toCChar
  by_cases hc : c.ucs > 0xff
  · rw [if_pos hc]
    omega
  · rw [if_neg hc]
    cases charSigned
    · simp only [Bool.false_and, Bool.false_eq_true, if_false]
      omega
    · simp only [Bool.true_and, decide_eq_true_eq]
      split_ifs <;> omega

/-- C5: `isNamedRegister()` is true iff `m_name` is one of the 26 characters
`'a'..'z'`.  It is false for every uppercase name `'A'..'Z'`, for the special
names `"`, `_` and `+`, for the null `QChar`, and for every character outside
Latin-1, whose `toLatin1()` is 0.  All of this holds for a signed and for an
unsigned `char`. -/
theorem Register.isNamedRegister_iff_lowercase (charSigned : Bool) :
    (∀ r : Register,
        (r.isNamedRegister charSigned = true
          ↔ ('a'.toNat ≤ r.m_name.ucs ∧ r.m_name.ucs ≤ 'z'.toNat))
        ∧ (r.isNamedRegister charSigned = true
          ↔ ∃ i : Nat, i < 26 ∧ r.m_name = QChar.mk ('a'.toNat + i)))
    ∧ (∀ (c : QChar) (v : QString) (a : Bool), 'A'.toNat ≤ c.ucs → c.ucs ≤ 'Z'.toNat →
        (Register.mk c v a).isNamedRegister charSigned = false)
    ∧ (∀ (v : QString) (a : Bool),
        (Register.mk (QChar.ofChar '"') v a).isNamedRegister charSigned = false
        ∧ (Register.mk (QChar.ofChar '_') v a).isNamedRegister charSigned = false
        ∧ (Register.mk (QChar.ofChar '+') v a).isNamedRegister charSigned = false
        ∧ (Register.mk QChar.null v a).isNamedRegister charSigned = false)
    ∧ (∀ (c : QChar) (v : QString) (a : Bool), c.ucs > 0xff →
        c.toLatin1 charSigned = 0
        ∧ (Register.mk c v a).isNamedRegister charSigned = false) := by
  have hiff : ∀ r : Register,
      r.isNamedRegister charSigned = true ↔ (97 ≤ r.m_name.ucs ∧ r.m_name.ucs ≤ 122) := by
    intro r
    rw [← QChar.toLatin1_lowercase_iff charSigned r.m_name]
    simp [Register.isNamedRegister]
  have hfalse : ∀ r : Register, ¬ (97 ≤ r.m_name.ucs ∧ r.m_name.ucs ≤ 122) →
      r.isNamedRegister charSigned = false := by
    intro r hr
    cases hb : r.isNamedRegister charSigned
    · rfl
    · exact absurd ((hiff r).1 hb) hr
  have ha : 'a'.toNat = 97 := by decide
  have hz : 'z'.toNat = 122 := by decide
  have hA : 'A'.toNat = 65 := by decide
  have hZ : 'Z'.toNat = 90 := by decide
  refine ⟨?_, ?_, ?_, ?_⟩
  · intro r
    refine ⟨by rw [ha, hz]; exact hiff r, ?_⟩
    rw [hiff r, ha]
    constructor
    · rintro ⟨h1, h2⟩
      refine ⟨r.m_name.ucs - 97, by omega, ?_⟩
      cases hn : r.m_name with
      | mk u =>
        rw [hn] at h1 h2
        simp only [QChar.mk.injEq] at h1 h2 ⊢
        omega
    · rintro ⟨i, hi, hn⟩
      rw [hn]
      simp only
      omega
  · intro c v a h1 h2
    apply hfalse
    simp only
    omega
  · intro v a
    refine ⟨?_, ?_, ?_, ?_⟩ <;> apply hfalse <;>
      simp [QChar.ofChar, QChar.null]
  · intro c v a hc
    refine ⟨by simp [QChar.toLatin1, hc], ?_⟩
    apply hfalse
    simp only
    omega

/-- C5 at the names `Q` (uppercase) and U+0161 (outside Latin-1, low byte
`'a'`), with a signed `char`. -/
theorem Register.isNamedRegister_iff_lowercase_witness :
    (Register.mk (QChar.ofChar 'Q') [] true).isNamedRegister true = false
    ∧ (QChar.mk 0x161).toLatin1 true = 0
    ∧ (Register.mk (QChar.mk 0x161) [] false).isNamedRegister true = false
    ∧ (Register.mk (QChar.ofChar 'q') [] false).isNamedRegister true = true :=
  ⟨(Register.isNamedRegister_iff_lowercase true).2.1 (QChar.ofChar 'Q') [] true
      (by decide) (by decide),
    ((Register.isNamedRegister_iff_lowercase true).2.2.2 (QChar.mk 0x161) [] false
      (by decide)).1,
    ((Register.isNamedRegister_iff_lowercase true).2.2.2 (QChar.mk 0x161) [] false
      (by decide)).2,
    by decide⟩

/-- C6: a token satisfies at most one of `isAction()`, `isRepeat()`,
`isMovement()`, `isRange()`, and `isValid()` holds iff exactly one of them is
true; this is so for every value of `m_type`, hence for every constructed
token.  Each constructor gives the matching classifier and the matching union
member reads back the constructor argument; the default token is invalid and
satisfies none of the four. -/
theorem Token.tagged_union :
    (∀ t : Token,
        t.classifiers.count true ≤ 1
        ∧ (t.isValid = true ↔ t.classifiers.count true = 1))
    ∧ (∀ a : Action,
        (Token.ofAction a).classifiers = [true, false, false, false]
        ∧ (Token.ofAction a).isValid = true
        ∧ (Token.ofAction a).m_action = some a)
    ∧ (∀ n : Int,
        (Token.ofRepeat n).classifiers = [false, true, false, false]
        ∧ (Token.ofRepeat n).isValid = true
        ∧ (Token.ofRepeat n).m_repeat = some n)
    ∧ (∀ m : Movement,
        (Token.ofMovement m).classifiers = [false, false, true, false]
        ∧ (Token.ofMovement m).isValid = true
        ∧ (Token.ofMovement m).m_movement = some m)
    ∧ (∀ (m : Movement) (k : Key),
        (Token.ofMovementKey m k).classifiers = [false, false, true, false]
        ∧ (Token.ofMovementKey m k).isValid = true
        ∧ (Token.ofMovementKey m k).m_movement = some m)
    ∧ (∀ r : Range,
        (Token.ofRange r).classifiers = [false, false, false, true]
        ∧ (Token.ofRange r).isValid = true
        ∧ (Token.ofRange r).m_range = some r)
    ∧ Token.default.classifiers = [false, false, false, false]
    ∧ Token.default.isValid = false := by
  refine ⟨?_, ?_, ?_, ?_, ?_, ?_, rfl, rfl⟩
  · rintro ⟨ty, u, k⟩
    cases ty <;> simp [Token.classifiers, Token.isAction, Token.isRepeat, Token.isMovement,
      Token.isRange, Token.isValid]
  · intro a
    exact ⟨rfl, rfl, rfl⟩
  · intro n
    exact ⟨rfl, rfl, rfl⟩
  · intro m
    exact ⟨rfl, rfl, rfl⟩
  · intro m k
    exact ⟨rfl, rfl, rfl⟩
  · intro r
    exact ⟨rfl, rfl, rfl⟩

/-- C7: `Token(m, k)` is a Movement token whose `m_movement` is `m` and whose
`m_key` equals `k` under `Key::operator==`; a token built by any other
constructor has the default key (`m_key = -1`, `Qt::NoModifier`) as its
embedded key, and that key is not valid. -/
theorem Token.embedded_key :
    (∀ (m : Movement) (k : Key),
        (Token.ofMovementKey m k).isMovement = true
        ∧ (Token.ofMovementKey m k).m_movement = some m
        ∧ Key.eq (Token.ofMovementKey m k).m_key k = true)
    ∧ (∀ a : Action,
        (Token.ofAction a).m_key = Key.mk (-1) Qt.NoModifier
        ∧ (Token.ofAction a).m_key.isValid = false)
    ∧ (∀ n : Int,
        (Token.ofRepeat n).m_key = Key.mk (-1) Qt.NoModifier
        ∧ (Token.ofRepeat n).m_key.isValid = false)
    ∧ (∀ m : Movement,
        (Token.ofMovement m).m_key = Key.mk (-1) Qt.NoModifier
        ∧ (Token.ofMovement m).m_key.isValid = false)
    ∧ (∀ r : Range,
        (Token.ofRange r).m_key = Key.mk (-1) Qt.NoModifier
        ∧ (Token.ofRange r).m_key.isValid = false)
    ∧ Token.default.m_key = Key.mk (-1) Qt.NoModifier
    ∧ Token.default.m_key.isValid = false := by
  refine ⟨?_, ?_, ?_, ?_, ?_, rfl, by decide⟩
  · intro m k
    refine ⟨rfl, rfl, ?_⟩
    simp [Token.ofMovementKey, Key.eq]
  · intro a
    exact ⟨rfl, show Key.default.isValid = false by decide⟩
  · intro n
    exact ⟨rfl, show Key.default.isValid = false by decide⟩
  · intro m
    exact ⟨rfl, show Key.default.isValid = false by decide⟩
  · intro r
    exact ⟨rfl, show Key.default.isValid = false by decide⟩

/-- C8: every `Register` constructor sets `m_append` to false; `Register(name)`
and `Register()` have the empty string as value, so the value read back is
empty and `isBlock()` is false; `Register(name, value)` stores exactly the
given name and value. -/
theorem Register.constructors_fresh :
    (∀ (n : QChar) (v : QString),
        (Register.ofNameValue n v).m_name = n
        ∧ (Register.ofNameValue n v).m_value = v
        ∧ (Register.ofNameValue n v).m_append = false)
    ∧ (∀ n : QChar,
        (Register.ofName n).m_name = n
        ∧ (Register.ofName n).m_value = []
        ∧ (Register.ofName n).m_append = false
        ∧ (Register.ofName n).isBlock = false)
    ∧ Register.default.m_value = []
    ∧ Register.default.m_append = false
    ∧ Register.default.isBlock = false := by
  refine ⟨?_, ?_, rfl, rfl, by decide⟩
  · intro n v
    exact ⟨rfl, rfl, rfl⟩
  · intro n
    exact ⟨rfl, rfl, rfl, QString.endsWith_nil newLine⟩

end VVim
